import Mathlib

/-!
Verification of the region-growth core of `pytraits/image/region.py`.

The Python module is shallowly embedded: grids are flat `List Nat` of length
`size.x * size.y` in row-major layout (cell `(x, y)` lives at index
`y * size.x + x`, matching numpy's `reshape(size.y, size.x)` of the flat
array), and every random draw or shuffle outcome is passed in explicitly as a
parameter (the draw list of `np.random.choice`, the per-call offset order of
`np.random.shuffle`).
-/

set_option maxHeartbeats 1000000

namespace PyTraits

/-- Size descriptor from `pytraits.base.Size2D`: `x` is the width, `y` the height. -/
structure Size2D where
  x : Nat
  y : Nat
  deriving DecidableEq, Repr

/-- Embedding of `get_kernel_border_coordinates(d)`: `border = d // 2`,
`primitive = list(range(-border, border + 1))`, and the list comprehension
`[(x, y) for x in primitive for y in primitive if abs(x) == border or abs(y) == border]`. -/
def get_kernel_border_coordinates (d : Nat) : List (Int × Int) :=
  let border : Int := (d / 2 : Nat)
  let primitive : List Int := (List.range (d / 2 * 2 + 1)).map (fun (i : Nat) => (i : Int) - border)
  (primitive.flatMap fun x => primitive.map fun y => (x, y)).filter
    (fun p => |p.1| == border || |p.2| == border)

/-- The two failure modes of `np.random.choice(n, k, replace=...)` as hit by
`random_grid`: a `ValueError` for a zero population when samples are requested
(the spec's `InvalidSizeError`), and a `ValueError` for asking more unique
samples than the population when `replace=False` (the spec's `SamplingError`). -/
inductive RGError where
  | invalidSize
  | samplingError
  deriving DecidableEq, Repr

instance {ε α : Type} [DecidableEq ε] [DecidableEq α] : DecidableEq (Except ε α) := fun a b =>
  match a, b with
  | .error e, .error f => decidable_of_iff (e = f) (by simp)
  | .ok x, .ok y => decidable_of_iff (x = y) (by simp)
  | .error _, .ok _ => isFalse (by simp)
  | .ok _, .error _ => isFalse (by simp)

/-- The seeding loop of `random_grid`:
`i = 1; for c in coords: grid[c] = i * factor; i = i + 1`. -/
def seedLoop (factor : Nat) : Nat → List Nat → List Nat → List Nat
  | _, [], g => g
  | i, c :: cs, g => seedLoop factor (i + 1) cs (g.set c (i * factor))

/-- The unseeded-coordinate comprehension of `random_grid`:
`[(x, y) for x in X for y in Y if grid[y, x] == 0]` (column-major: outer loop
over `x`). -/
def grid_coords (size : Size2D) (g : List Nat) : List (Nat × Nat) :=
  (List.range size.x).flatMap fun x =>
    ((List.range size.y).filter fun y => g.getD (y * size.x + x) 0 == 0).map fun y => (x, y)

/-- Embedding of `random_grid(size, classes, factor=1, instances=0)`.  The
`draw` parameter is the outcome of the `np.random.choice` call (flat cell
indices, in draw order); the guards reproduce numpy's precondition errors,
which fire before the draw is used: with `replace=False` numpy rejects a zero
population and then an over-large sample, with `replace=True` it rejects a
zero population only when at least one sample is requested. -/
def random_grid (size : Size2D) (classes : Nat) (factor : Nat) (instances : Nat)
    (draw : List Nat) : Except RGError (List Nat × List (Nat × Nat)) :=
  if instances < classes then
    if size.x * size.y = 0 then .error .invalidSize
    else if size.x * size.y < classes then .error .samplingError
    else
      let grid := seedLoop factor 1 draw (List.replicate (size.x * size.y) 0)
      .ok (grid, grid_coords size grid)
  else
    if size.x * size.y = 0 ∧ 0 < instances then .error .invalidSize
    else
      let grid := seedLoop factor 1 draw (List.replicate (size.x * size.y) 0)
      .ok (grid, grid_coords size grid)

/-- Flat index of the toroidally wrapped neighbor:
`xx = (x + dx) % size.x`, `yy = (y + dy) % size.y`, cell `(xx, yy)` at flat
index `yy * size.x + xx`.  `Int.emod` agrees with Python's `%` on positive
moduli. -/
def wrapIdx (size : Size2D) (x y : Nat) (p : Int × Int) : Nat :=
  ((((y : Int) + p.2) % (size.y : Int)).toNat) * size.x + ((((x : Int) + p.1) % (size.x : Int)).toNat)

/-- Embedding of `VicinityIterator.execute(x, y, grid)`.  The iterator's
post-shuffle offset order is the explicit list argument; `canonical` is the
grid the iterator reads (`self._grid`) and `target` the grid it writes
(`grid`).  Returns the success flag together with the updated target. -/
def VicinityIterator.execute (size : Size2D) (canonical : List Nat) :
    List (Int × Int) → Nat → Nat → List Nat → Bool × List Nat
  | [], _, _, target => (false, target)
  | p :: rest, x, y, target =>
    if canonical.getD (wrapIdx size x y p) 0 ≠ 0 then
      (true, target.set (y * size.x + x) (canonical.getD (wrapIdx size x y p) 0))
    else VicinityIterator.execute size canonical rest x y target

/-- One `Checker.__call__(x, y)` of `Generator_RB.Checker`, with the
`VicinityIterator` call inlined on the shared grid `g` (in `Generator_RB.execute`
the checker's grid and the iterator's canonical grid are the same object).
`coord_len` is the length recorded at `Checker.__init__` and never updated.
Returns the new counter, the keep flag `not _checkPixel(...)`, and the grid. -/
def Checker.callOn (size : Size2D) (skips coord_len : Nat) (vicOrd : List (Int × Int))
    (g : List Nat) (i : Nat) (x y : Nat) : Nat × Bool × List Nat :=
  let i' := (i + 1) % skips
  if i' % skips = 0 ∨ coord_len < skips then
    let r := VicinityIterator.execute size g vicOrd x y g
    (i', !r.1, r.2)
  else (i', true, g)

/-- The list-comprehension filter pass of one round of `Generator_RB.execute`:
`[(x, y) for (x, y) in self._coords if cc(x, y)]`, threading the shared grid
and the checker counter through the calls.  `sch k` is the offset order the
iterator's in-place shuffle produces at the round's `k`-th call.  Returns the
kept coordinates, the grid, and the counter. -/
def roundLoop (size : Size2D) (skips coord_len : Nat) (sch : Nat → List (Int × Int)) :
    List (Nat × Nat) → List Nat → Nat → Nat → List (Nat × Nat) × List Nat × Nat
  | [], g, i, _ => ([], g, i)
  | c :: cs, g, i, k =>
    let r := Checker.callOn size skips coord_len (sch k) g i c.1 c.2
    let rest := roundLoop size skips coord_len sch cs r.2.2 r.1 (k + 1)
    if r.2.1 then (c :: rest.1, rest.2.1, rest.2.2) else rest

/-- The mutable state of `Generator_RB.execute`'s while-loop: the shared grid,
the unlabeled coordinate list, and the checker's counter `_i`. -/
structure DriverState where
  grid : List Nat
  coords : List (Nat × Nat)
  ctr : Nat
  deriving DecidableEq, Repr

/-- One iteration of the `while self._coords:` loop of `Generator_RB.execute`
(`new_grid = self._grid` aliases the same array, and `self._grid[:] = new_grid[:]`
is a self-copy, so the round is exactly one filter pass over the shared grid). -/
def roundStep (size : Size2D) (skips coord_len : Nat) (sch : Nat → List (Int × Int))
    (s : DriverState) : DriverState :=
  let r := roundLoop size skips coord_len sch s.coords s.grid s.ctr 0
  ⟨r.2.1, r.1, r.2.2⟩

/-- `n` rounds of the driver loop; `rsch r` gives round `r`'s offset orders. -/
def runRounds (size : Size2D) (skips coord_len : Nat)
    (rsch : Nat → Nat → List (Int × Int)) : Nat → DriverState → DriverState
  | 0, s => s
  | n + 1, s => runRounds size skips coord_len rsch n (roundStep size skips coord_len (rsch n) s)

/-- The vicinity `Generator_RB.__init__` fixes for the driver:
`get_kernel_border_coordinates(5)`. -/
def Generator_RB.vic : List (Int × Int) := get_kernel_border_coordinates 5

/-- The `skips = 3` constant local to `Generator_RB.execute`. -/
def Generator_RB.skips : Nat := 3

/-- The grid/coordinate initialization of `Generator_RB.__init__`:
`random_grid(size, number_of_classes, factor=10)` with `instances` left at its
default `0`. -/
def Generator_RB.init (size : Size2D) (number_of_classes : Nat) (draw : List Nat) :
    Except RGError (List Nat × List (Nat × Nat)) :=
  random_grid size number_of_classes 10 0 draw

/-- Modelled from the spec: the "strictly synchronous" alternative round
semantics the spec contrasts with the code's behavior — every vicinity lookup
of a round reads the `snapshot` of the grid as committed at the start of the
round, while writes still go to the working grid.  This definition follows the
spec's words ("reads-within-a-round see ... only prior-round state") and exists
solely to be compared with `roundLoop`. -/
def roundLoopSync (size : Size2D) (skips coord_len : Nat) (sch : Nat → List (Int × Int))
    (snapshot : List Nat) : List (Nat × Nat) → List Nat → Nat → Nat →
    List (Nat × Nat) × List Nat × Nat
  | [], g, i, _ => ([], g, i)
  | c :: cs, g, i, k =>
    let i' := (i + 1) % skips
    if i' % skips = 0 ∨ coord_len < skips then
      let r := VicinityIterator.execute size snapshot (sch k) c.1 c.2 g
      let rest := roundLoopSync size skips coord_len sch snapshot cs r.2 i' (k + 1)
      if r.1 then rest else (c :: rest.1, rest.2.1, rest.2.2)
    else
      let rest := roundLoopSync size skips coord_len sch snapshot cs g i' (k + 1)
      (c :: rest.1, rest.2.1, rest.2.2)

/-- Modelled from the spec: one strictly synchronous round (see `roundLoopSync`). -/
def roundStepSync (size : Size2D) (skips coord_len : Nat) (sch : Nat → List (Int × Int))
    (s : DriverState) : DriverState :=
  let r := roundLoopSync size skips coord_len sch s.grid s.coords s.grid s.ctr 0
  ⟨r.2.1, r.1, r.2.2⟩

/-- The nonzero label values a `classes`-class grid with the given `factor` may
hold: `factor, 2*factor, ..., classes*factor`. -/
def labelValues (classes factor : Nat) : List Nat :=
  (List.range classes).map (fun k => (k + 1) * factor)

/-- Toroidal distance between cells `a` and `b` on a cycle of `w` cells. -/
def tdist (w a b : Nat) : Nat :=
  min ((((a : Int) - b) % (w : Int)).toNat) ((((b : Int) - a) % (w : Int)).toNat)

/-! ### Shared concrete data for the counterexamples -/

/-- The grid `Generator_RB.init ⟨10, 1⟩ 1 [0]` produces: one class-1 seed
(value 10) at cell 0 of a 10-wide, 1-high grid. -/
def g0 : List Nat := [10, 0, 0, 0, 0, 0, 0, 0, 0, 0]

/-- The 10-wide, 1-high size used by the concrete counterexamples. -/
def sz10 : Size2D := ⟨10, 1⟩

/-- The schedule in which every resolver call happens to see the ring in its
canonical (unshuffled) order. -/
def canonSch : Nat → List (Int × Int) := fun _ => Generator_RB.vic

/-- A driver state mid-run: the checker was constructed when 9 coordinates
were unlabeled, two coordinates remain unlabeled, the counter sits at 0. -/
def s1 : DriverState := ⟨g0, [(1, 0), (2, 0)], 0⟩

/-- An adversarial initial order of the nine unlabeled cells of `g0` on
`sz10`: the three cells at positions 3, 6, 9 (the only ones the throttle lets
attempt while the counter starts at 0 and 9 coordinates were frozen in) are
(3,0), (4,0), (5,0), all of whose rings are entirely zero. -/
def s0 : DriverState :=
  ⟨g0, [(1, 0), (2, 0), (3, 0), (8, 0), (9, 0), (4, 0), (6, 0), (7, 0), (5, 0)], 0⟩

/-- A round order that attempts (2, 0) at position 3 and (4, 0) at position 6,
demonstrating intra-round cascading. -/
def s4 : DriverState :=
  ⟨g0, [(1, 0), (3, 0), (2, 0), (8, 0), (9, 0), (4, 0), (5, 0), (6, 0), (7, 0)], 0⟩

/-- The driver run from `s` diverges: no number of rounds empties the
unlabeled-coordinate list. -/
def divergesFrom (size : Size2D) (skips coord_len : Nat)
    (rsch : Nat → Nat → List (Int × Int)) (s : DriverState) : Prop :=
  ∀ n, (runRounds size skips coord_len rsch n s).coords ≠ []

/-- The driver-state invariant: the grid has exactly `size.x * size.y` cells,
every listed coordinate is in bounds, every zero cell is still listed, and
every nonzero cell holds one of the `classes` labels `k * factor`. -/
def Inv (size : Size2D) (classes factor : Nat) (s : DriverState) : Prop :=
  s.grid.length = size.x * size.y ∧
  (∀ c ∈ s.coords, c.1 < size.x ∧ c.2 < size.y) ∧
  (∀ x, x < size.x → ∀ y, y < size.y →
    s.grid.getD (y * size.x + x) 0 = 0 → (x, y) ∈ s.coords) ∧
  (∀ j, j < size.x * size.y →
    s.grid.getD j 0 = 0 ∨ s.grid.getD j 0 ∈ labelValues classes factor)

/-! ### Generic list lemmas -/

theorem getD_set_same (l : List Nat) (idx v : Nat) (h : idx < l.length) :
    (l.set idx v).getD idx 0 = v := by
  rw [List.getD_eq_getElem?_getD, List.getElem?_set_self h, Option.getD_some]

theorem getD_set_ne (l : List Nat) (idx v j : Nat) (h : idx ≠ j) :
    (l.set idx v).getD j 0 = l.getD j 0 := by
  rw [List.getD_eq_getElem?_getD, List.getElem?_set_ne h, ← List.getD_eq_getElem?_getD]

theorem getD_set_cases (l : List Nat) (idx v j : Nat) :
    (l.set idx v).getD j 0 = l.getD j 0 ∨
      (j = idx ∧ idx < l.length ∧ (l.set idx v).getD j 0 = v) := by
  by_cases hj : idx = j
  · subst hj
    by_cases hl : idx < l.length
    · exact Or.inr ⟨rfl, hl, getD_set_same l idx v hl⟩
    · left
      rw [List.getD_eq_getElem?_getD, List.getD_eq_getElem?_getD, List.getElem?_set,
        List.getElem?_len_le (Nat.le_of_not_lt hl)]
      simp [hl]
  · exact Or.inl (getD_set_ne l idx v j hj)

theorem getD_set_nonzero (l : List Nat) (idx v j : Nat) (hv : v ≠ 0)
    (h : l.getD j 0 ≠ 0) : (l.set idx v).getD j 0 ≠ 0 := by
  rcases getD_set_cases l idx v j with hc | ⟨_, _, hc⟩ <;> · rw [hc]; assumption

theorem getD_replicate_zero (n j : Nat) : (List.replicate n (0 : Nat)).getD j 0 = 0 := by
  rw [List.getD_eq_getElem?_getD, List.getElem?_replicate]
  by_cases h : j < n <;> simp [h]

theorem flat_index_lt (w h x y : Nat) (hx : x < w) (hy : y < h) : y * w + x < w * h := by
  have h2 : (y + 1) * w ≤ h * w := Nat.mul_le_mul_right w hy
  rw [Nat.succ_mul] at h2
  rw [Nat.mul_comm w h]
  omega

/-! ### The kernel ring (Neighborhood Sampler) -/

theorem mem_kernel_primitive (d : Nat) (z : Int) :
    z ∈ (List.range (d / 2 * 2 + 1)).map (fun (i : Nat) => (i : Int) - (d / 2 : Nat)) ↔
      -(d / 2 : Nat) ≤ z ∧ z ≤ (d / 2 : Nat) := by
  rw [List.mem_map]
  constructor
  · rintro ⟨i, hi, rfl⟩
    rw [List.mem_range] at hi
    omega
  · intro h
    refine ⟨(z + (d / 2 : Nat)).toNat, ?_, ?_⟩
    · rw [List.mem_range]
      omega
    · omega

theorem mem_kernel_pairs (d : Nat) (a b : Int) :
    ((a, b) ∈ ((List.range (d / 2 * 2 + 1)).map (fun (i : Nat) => (i : Int) - (d / 2 : Nat))).flatMap
        (fun x => ((List.range (d / 2 * 2 + 1)).map (fun (i : Nat) => (i : Int) - (d / 2 : Nat))).map
          (fun y => (x, y)))) ↔
      ((-(d / 2 : Nat) ≤ a ∧ a ≤ (d / 2 : Nat)) ∧ (-(d / 2 : Nat) ≤ b ∧ b ≤ (d / 2 : Nat))) := by
  rw [List.mem_flatMap]
  constructor
  · rintro ⟨x, hx, hm⟩
    rw [List.mem_map] at hm
    obtain ⟨y, hy, heq⟩ := hm
    rw [Prod.ext_iff] at heq
    obtain ⟨h1, h2⟩ := heq
    subst h1
    subst h2
    exact ⟨(mem_kernel_primitive d x).mp hx, (mem_kernel_primitive d y).mp hy⟩
  · rintro ⟨ha, hb⟩
    exact ⟨a, (mem_kernel_primitive d a).mpr ha,
      List.mem_map.mpr ⟨b, (mem_kernel_primitive d b).mpr hb, rfl⟩⟩

theorem mem_kernel_border (d : Nat) (a b : Int) :
    (a, b) ∈ get_kernel_border_coordinates d ↔
      ((-(d / 2 : Nat) ≤ a ∧ a ≤ (d / 2 : Nat)) ∧ (-(d / 2 : Nat) ≤ b ∧ b ≤ (d / 2 : Nat)) ∧
        (|a| = (d / 2 : Nat) ∨ |b| = (d / 2 : Nat))) := by
  show (a, b) ∈ List.filter _ _ ↔ _
  rw [List.mem_filter, mem_kernel_pairs]
  simp only [Bool.or_eq_true, beq_iff_eq]
  tauto

/-! ### Vicinity Resolver classification -/

theorem VicinityIterator.execute_cons (size : Size2D) (canonical : List Nat)
    (p : Int × Int) (rest : List (Int × Int)) (x y : Nat) (target : List Nat) :
    VicinityIterator.execute size canonical (p :: rest) x y target =
      if canonical.getD (wrapIdx size x y p) 0 ≠ 0 then
        (true, target.set (y * size.x + x) (canonical.getD (wrapIdx size x y p) 0))
      else VicinityIterator.execute size canonical rest x y target := rfl

theorem VicinityIterator.execute_spec (size : Size2D) (canonical : List Nat)
    (vic : List (Int × Int)) (x y : Nat) (target : List Nat) :
    (VicinityIterator.execute size canonical vic x y target = (false, target) ∧
      ∀ p ∈ vic, canonical.getD (wrapIdx size x y p) 0 = 0) ∨
    (∃ p ∈ vic, canonical.getD (wrapIdx size x y p) 0 ≠ 0 ∧
      VicinityIterator.execute size canonical vic x y target =
        (true, target.set (y * size.x + x) (canonical.getD (wrapIdx size x y p) 0))) := by
  induction vic with
  | nil => exact Or.inl ⟨rfl, by simp⟩
  | cons p rest ih =>
    by_cases hp : canonical.getD (wrapIdx size x y p) 0 ≠ 0
    · right
      exact ⟨p, List.mem_cons_self p rest, hp,
        by rw [VicinityIterator.execute_cons, if_pos hp]⟩
    · have hstep : VicinityIterator.execute size canonical (p :: rest) x y target =
          VicinityIterator.execute size canonical rest x y target := by
        rw [VicinityIterator.execute_cons, if_neg hp]
      rcases ih with ⟨heq, hall⟩ | ⟨q, hq, hnz, heq⟩
      · left
        refine ⟨hstep.trans heq, ?_⟩
        intro r hr
        rcases List.mem_cons.mp hr with rfl | hr
        · simpa using hp
        · exact hall r hr
      · right
        exact ⟨q, List.mem_cons_of_mem p hq, hnz, hstep.trans heq⟩

theorem VicinityIterator.execute_length (size : Size2D) (canonical : List Nat)
    (vic : List (Int × Int)) (x y : Nat) (target : List Nat) :
    (VicinityIterator.execute size canonical vic x y target).2.length = target.length := by
  rcases VicinityIterator.execute_spec size canonical vic x y target with ⟨heq, _⟩ |
    ⟨p, _, _, heq⟩ <;> rw [heq] <;> simp

theorem VicinityIterator.execute_nonzero_mono (size : Size2D) (canonical : List Nat)
    (vic : List (Int × Int)) (x y : Nat) (target : List Nat) (j : Nat)
    (h : target.getD j 0 ≠ 0) :
    (VicinityIterator.execute size canonical vic x y target).2.getD j 0 ≠ 0 := by
  rcases VicinityIterator.execute_spec size canonical vic x y target with ⟨heq, _⟩ |
    ⟨p, _, hnz, heq⟩ <;> rw [heq]
  · exact h
  · exact getD_set_nonzero _ _ _ _ hnz h

/-! ### The seeding loop -/

theorem seedLoop_length (factor : Nat) :
    ∀ (draw : List Nat) (i : Nat) (g : List Nat), (seedLoop factor i draw g).length = g.length
  | [], _, _ => rfl
  | c :: cs, i, g => by
    rw [seedLoop, seedLoop_length factor cs (i + 1) (g.set c (i * factor)), List.length_set]

theorem seedLoop_getD_of_not_mem (factor : Nat) :
    ∀ (draw : List Nat) (i : Nat) (g : List Nat) (j : Nat), j ∉ draw →
      (seedLoop factor i draw g).getD j 0 = g.getD j 0
  | [], _, _, _, _ => rfl
  | c :: cs, i, g, j, hj => by
    rw [seedLoop, seedLoop_getD_of_not_mem factor cs (i + 1) _ j (fun h => hj (List.mem_cons_of_mem c h)),
      getD_set_ne g c (i * factor) j (fun h => hj (h ▸ List.mem_cons_self c cs))]

theorem seedLoop_getD_nodup (factor : Nat) :
    ∀ (draw : List Nat) (i : Nat) (g : List Nat), draw.Nodup →
      ∀ (k : Nat) (hk : k < draw.length), draw.get ⟨k, hk⟩ < g.length →
        (seedLoop factor i draw g).getD (draw.get ⟨k, hk⟩) 0 = (i + k) * factor
  | c :: cs, i, g, hnd, 0, hk, hlt => by
    have hcm : c ∉ cs := (List.nodup_cons.mp hnd).1
    simp only [List.get_eq_getElem, List.getElem_cons_zero] at hlt ⊢
    rw [seedLoop, seedLoop_getD_of_not_mem factor cs (i + 1) _ c hcm,
      getD_set_same g c (i * factor) hlt, Nat.add_zero]
  | c :: cs, i, g, hnd, k + 1, hk, hlt => by
    simp only [List.get_eq_getElem, List.getElem_cons_succ] at hlt ⊢
    have hk' : k < cs.length := by simpa using hk
    have := seedLoop_getD_nodup factor cs (i + 1) (g.set c (i * factor))
      (List.nodup_cons.mp hnd).2 k hk' (by simpa using hlt)
    rw [seedLoop]
    simp only [List.get_eq_getElem] at this
    rw [this]
    ring

theorem seedLoop_getD_cases (factor : Nat) :
    ∀ (draw : List Nat) (i : Nat) (g : List Nat) (j : Nat),
      (seedLoop factor i draw g).getD j 0 = g.getD j 0 ∨
      ∃ k, k < draw.length ∧ (seedLoop factor i draw g).getD j 0 = (i + k) * factor
  | [], _, _, _ => Or.inl rfl
  | c :: cs, i, g, j => by
    rw [seedLoop]
    rcases seedLoop_getD_cases factor cs (i + 1) (g.set c (i * factor)) j with heq | ⟨k, hk, heq⟩
    · rcases getD_set_cases g c (i * factor) j with hc | ⟨_, _, hc⟩
      · exact Or.inl (heq.trans hc)
      · exact Or.inr ⟨0, by simp, by rw [heq, hc, Nat.add_zero]⟩
    · exact Or.inr ⟨k + 1, by simpa using hk, by rw [heq]; ring⟩
/-! ### C7: the Neighborhood Sampler -/

/-- C7: for every odd kernel diameter `d ≥ 3` with `border = d // 2`, the
Neighborhood Sampler returns exactly the offsets `(x, y)` with
`x, y ∈ [-border, border]` and `|x| = border` or `|y| = border`; the `d = 3`
result has exactly 8 elements, the `d = 5` result exactly 16, and the result
never contains `(0, 0)` (it is a pure function of `d`). -/
theorem C7_kernel_ring (d : Nat) (hodd : d % 2 = 1) (h3 : 3 ≤ d) :
    (∀ a b : Int, (a, b) ∈ get_kernel_border_coordinates d ↔
        ((-(d / 2 : Nat) ≤ a ∧ a ≤ (d / 2 : Nat)) ∧ (-(d / 2 : Nat) ≤ b ∧ b ≤ (d / 2 : Nat)) ∧
          (|a| = (d / 2 : Nat) ∨ |b| = (d / 2 : Nat)))) ∧
    (get_kernel_border_coordinates 3).length = 8 ∧
    (get_kernel_border_coordinates 5).length = 16 ∧
    ((0, 0) : Int × Int) ∉ get_kernel_border_coordinates d := by
  refine ⟨fun a b => mem_kernel_border d a b, by decide, by decide, ?_⟩
  intro hmem
  rw [mem_kernel_border] at hmem
  obtain ⟨-, -, habs⟩ := hmem
  rcases habs with h | h <;> rw [abs_zero] at h <;> omega

/-- Witness for C7 at `d = 5`. -/
theorem C7_kernel_ring_witness :
    ((0, 0) : Int × Int) ∉ get_kernel_border_coordinates 5 :=
  (C7_kernel_ring 5 (by decide) (by decide)).2.2.2

/-! ### C8: the Vicinity Resolver contract -/

/-- C8: for every coordinate and every offset order, the resolver returns true
and writes into `target[y * w + x]` iff some offset sees a nonzero canonical
value at the toroidally wrapped position; when it returns false the target is
returned untouched; the written value is a canonical-grid value, no cell other
than `(x, y)` ever changes, and the canonical grid is only read. -/
theorem C8_resolver_contract (size : Size2D) (canonical : List Nat) (vic : List (Int × Int))
    (x y : Nat) (target : List Nat) :
    ((VicinityIterator.execute size canonical vic x y target).1 = true ↔
      ∃ p ∈ vic, canonical.getD (wrapIdx size x y p) 0 ≠ 0) ∧
    ((VicinityIterator.execute size canonical vic x y target).1 = false →
      (VicinityIterator.execute size canonical vic x y target).2 = target) ∧
    ((VicinityIterator.execute size canonical vic x y target).1 = true →
      ∃ p ∈ vic, canonical.getD (wrapIdx size x y p) 0 ≠ 0 ∧
        (VicinityIterator.execute size canonical vic x y target).2 =
          target.set (y * size.x + x) (canonical.getD (wrapIdx size x y p) 0)) ∧
    (∀ j, j ≠ y * size.x + x →
      (VicinityIterator.execute size canonical vic x y target).2.getD j 0 = target.getD j 0) := by
  rcases VicinityIterator.execute_spec size canonical vic x y target with ⟨heq, hall⟩ |
    ⟨p, hp, hnz, heq⟩
  · rw [heq]
    refine ⟨⟨fun h => Bool.noConfusion h, ?_⟩, fun _ => rfl,
      fun htrue => Bool.noConfusion htrue, fun j hj => rfl⟩
    rintro ⟨q, hq, hnzq⟩
    exact absurd (hall q hq) hnzq
  · rw [heq]
    exact ⟨⟨fun _ => ⟨p, hp, hnz⟩, fun _ => rfl⟩, fun hfalse => Bool.noConfusion hfalse,
      fun _ => ⟨p, hp, hnz, rfl⟩,
      fun j hj => getD_set_ne target (y * size.x + x) _ j (Ne.symm hj)⟩

/-- Witness for C8 on a concrete grid and the driver's ring. -/
theorem C8_resolver_contract_witness :
    ((VicinityIterator.execute sz10 g0 Generator_RB.vic 1 0 g0).1 = true ↔
      ∃ p ∈ Generator_RB.vic, g0.getD (wrapIdx sz10 1 0 p) 0 ≠ 0) :=
  (C8_resolver_contract sz10 g0 Generator_RB.vic 1 0 g0).1

/-! ### C1: the throttling filter -/

/-- C1 counterexample: with `skips = 3` and only 2 (< 3) remaining unlabeled
coordinates the claim predicts a full-speed finish — every coordinate attempts
resolution, and both would succeed here since each has the nonzero seed inside
its ring.  The code instead checks the count frozen at `Checker.__init__`
(9 ≥ 3), the counter reaches 1 and 2 (never 0), no resolution is attempted,
both coordinates are kept and the grid is unchanged. -/
theorem C1_counterexample :
    s1.coords.length < Generator_RB.skips ∧
    (VicinityIterator.execute sz10 g0 Generator_RB.vic 1 0 g0).1 = true ∧
    (VicinityIterator.execute sz10 g0 Generator_RB.vic 2 0 g0).1 = true ∧
    roundStep sz10 Generator_RB.skips 9 canonSch s1 = ⟨g0, [(1, 0), (2, 0)], 2⟩ := by
  decide

/-- C1 amended: throttling depends only on the internal counter and the
coordinate count frozen when the Checker was constructed (the start of
`execute`), never on the live remaining count: while the frozen count is at
least `skips`, a call attempts resolution exactly when the incremented counter
hits 0 mod `skips`; only when the frozen count is below `skips` does every call
attempt resolution. -/
theorem C1_throttle_frozen (size : Size2D) (skips coord_len : Nat)
    (vicOrd : List (Int × Int)) (g : List Nat) (i x y : Nat) :
    (skips ≤ coord_len → (i + 1) % skips ≠ 0 →
      Checker.callOn size skips coord_len vicOrd g i x y = ((i + 1) % skips, true, g)) ∧
    ((i + 1) % skips = 0 ∨ coord_len < skips →
      Checker.callOn size skips coord_len vicOrd g i x y =
        ((i + 1) % skips, !(VicinityIterator.execute size g vicOrd x y g).1,
          (VicinityIterator.execute size g vicOrd x y g).2)) := by
  constructor
  · intro hge hne
    have hcond : ¬((i + 1) % skips % skips = 0 ∨ coord_len < skips) := by
      rw [Nat.mod_mod_of_dvd (i + 1) dvd_rfl]
      push_neg
      exact ⟨hne, by omega⟩
    simp only [Checker.callOn]
    rw [if_neg hcond]
  · intro hc
    have hcond : (i + 1) % skips % skips = 0 ∨ coord_len < skips := by
      rw [Nat.mod_mod_of_dvd (i + 1) dvd_rfl]
      exact hc
    simp only [Checker.callOn]
    rw [if_pos hcond]

/-- Witness for C1 amended: frozen count 9, skips 3, counter 0 — kept, no
attempt. -/
theorem C1_throttle_frozen_witness :
    Checker.callOn sz10 3 9 Generator_RB.vic g0 0 1 0 = (1, true, g0) :=
  (C1_throttle_frozen sz10 3 9 Generator_RB.vic g0 0 1 0).1 (by decide) (by decide)

/-! ### C2: construction-time errors -/

/-- C2 counterexample: there is no kernel-diameter validation anywhere — the
even diameter 2 is accepted and yields the full `d = 3` ring instead of an
InvalidKernelError — and when `instances ≥ classes` construction succeeds even
though `classes` exceeds the cell count (no SamplingError). -/
theorem C2_counterexample :
    get_kernel_border_coordinates 2 = get_kernel_border_coordinates 3 ∧
    (get_kernel_border_coordinates 2).length = 8 ∧
    random_grid ⟨2, 2⟩ 5 1 5 [0, 1, 2, 3, 0] = .ok ([5, 2, 3, 4], []) := by
  decide

/-- C2 amended: construction fails with the zero-population error when
`width * height = 0` (given `classes ≥ 1`), fails with the sampling error
exactly when the draw is without replacement (`instances < classes`) and
`classes` exceeds a positive cell count, and succeeds otherwise — there is no
other failure path.  Kernel diameters are never validated:
`get_kernel_border_coordinates` is total; `d = 2` returns the `d = 3` ring and
`d = 1` returns `[(0, 0)]` instead of raising anything. -/
theorem C2_construction_errors (size : Size2D) (classes factor instances : Nat)
    (draw : List Nat) (hc : 1 ≤ classes) :
    (size.x * size.y = 0 →
      random_grid size classes factor instances draw = .error .invalidSize) ∧
    (instances < classes → 0 < size.x * size.y → size.x * size.y < classes →
      random_grid size classes factor instances draw = .error .samplingError) ∧
    (0 < size.x * size.y → (classes ≤ size.x * size.y ∨ classes ≤ instances) →
      ∃ pr, random_grid size classes factor instances draw = .ok pr) ∧
    get_kernel_border_coordinates 2 = get_kernel_border_coordinates 3 ∧
    get_kernel_border_coordinates 1 = [(0, 0)] := by
  refine ⟨?_, ?_, ?_, by decide, by decide⟩
  · intro h0
    by_cases hlt : instances < classes
    · simp only [random_grid]
      rw [if_pos hlt, if_pos h0]
    · simp only [random_grid]
      rw [if_neg hlt, if_pos ⟨h0, by omega⟩]
  · intro hlt hpos hcl
    simp only [random_grid]
    rw [if_pos hlt, if_neg (by omega), if_pos hcl]
  · intro hpos hor
    by_cases hlt : instances < classes
    · have hcl : ¬size.x * size.y < classes := by
        rcases hor with h | h <;> omega
      simp only [random_grid]
      rw [if_pos hlt, if_neg (by omega), if_neg hcl]
      exact ⟨_, rfl⟩
    · simp only [random_grid]
      rw [if_neg hlt, if_neg (by omega)]
      exact ⟨_, rfl⟩

/-- Witness for C2 amended: a zero-area grid and an impossible unique draw. -/
theorem C2_construction_errors_witness :
    random_grid ⟨0, 5⟩ 1 1 0 [] = .error .invalidSize ∧
    random_grid ⟨2, 1⟩ 3 1 0 [] = .error .samplingError :=
  ⟨(C2_construction_errors ⟨0, 5⟩ 1 1 0 [] (by decide)).1 (by decide),
    (C2_construction_errors ⟨2, 1⟩ 3 1 0 [] (by decide)).2.1 (by decide) (by decide) (by decide)⟩

/-! ### C3 and C6: the Grid and Seed Initializer -/

theorem seeded_grid_spec (n factor : Nat) (draw : List Nat) (hnd : draw.Nodup)
    (hb : ∀ c ∈ draw, c < n) (hf : 0 < factor) :
    (∀ (k : Nat) (hk : k < draw.length),
      (seedLoop factor 1 draw (List.replicate n 0)).getD (draw.get ⟨k, hk⟩) 0 =
        (k + 1) * factor) ∧
    (∀ p, p ∉ draw → (seedLoop factor 1 draw (List.replicate n 0)).getD p 0 = 0) ∧
    ((List.range n).filter
        (fun p => (seedLoop factor 1 draw (List.replicate n 0)).getD p 0 != 0)).length =
      draw.length := by
  have hval : ∀ (k : Nat) (hk : k < draw.length),
      (seedLoop factor 1 draw (List.replicate n 0)).getD (draw.get ⟨k, hk⟩) 0 =
        (k + 1) * factor := by
    intro k hk
    have hlt : draw.get ⟨k, hk⟩ < (List.replicate n (0 : Nat)).length := by
      rw [List.length_replicate]
      exact hb _ (List.get_mem draw k hk)
    rw [seedLoop_getD_nodup factor draw 1 (List.replicate n 0) hnd k hk hlt, Nat.add_comm]
  have hzero : ∀ p, p ∉ draw → (seedLoop factor 1 draw (List.replicate n 0)).getD p 0 = 0 := by
    intro p hp
    rw [seedLoop_getD_of_not_mem factor draw 1 (List.replicate n 0) p hp, getD_replicate_zero]
  refine ⟨hval, hzero, ?_⟩
  have hcongr : (List.range n).filter
      (fun p => (seedLoop factor 1 draw (List.replicate n 0)).getD p 0 != 0) =
      (List.range n).filter (fun p => decide (p ∈ draw)) := by
    apply List.filter_congr
    intro p hp
    by_cases hmem : p ∈ draw
    · obtain ⟨⟨k, hk⟩, hkp⟩ := List.mem_iff_get.mp hmem
      have : (seedLoop factor 1 draw (List.replicate n 0)).getD p 0 = (k + 1) * factor := by
        rw [← hkp]
        exact hval k hk
      have hnz : (seedLoop factor 1 draw (List.replicate n 0)).getD p 0 ≠ 0 := by
        rw [this]
        positivity
      rw [bne_iff_ne.mpr hnz, decide_eq_true hmem]
    · rw [hzero p hmem, decide_eq_false hmem]
      rfl
  rw [hcongr]
  have hperm : ((List.range n).filter (fun p => decide (p ∈ draw))).Perm draw := by
    rw [List.perm_ext_iff_of_nodup (List.Nodup.filter _ (List.nodup_range n)) hnd]
    intro q
    rw [List.mem_filter, List.mem_range]
    constructor
    · rintro ⟨-, hq⟩
      simpa using hq
    · intro hq
      exact ⟨hb q hq, by simpa using hq⟩
  exact hperm.length_eq

/-- C3 counterexample: with replacement, a repeated draw overwrites the earlier
label: two instances both drawn at cell 0 of a 2-cell grid produce a single
seeded cell (holding 2·factor), not `instances = 2` seeded cells. -/
theorem C3_counterexample :
    random_grid ⟨2, 1⟩ 1 1 2 [0, 0] = .ok ([2, 0], [(1, 0)]) ∧
    ((List.range 2).filter (fun p => ([2, 0] : List Nat).getD p 0 != 0)).length = 1 ∧
    (1 : Nat) ≠ 2 := by
  decide

/-- C3 amended: when `instances ≥ classes` the initializer draws `instances`
positions with replacement; the i-th draw (1-indexed) writes `i * factor` at
its position, a later draw overwriting an earlier one at the same cell.  For
every outcome in which the drawn positions are pairwise distinct the claim
holds: exactly `instances` seeded cells, the i-th drawn cell holding the
distinct label `i * factor`, and all remaining cells 0. -/
theorem C3_with_replacement_seeding (size : Size2D) (classes factor instances : Nat)
    (draw : List Nat) (hge : classes ≤ instances) (hlen : draw.length = instances)
    (hnd : draw.Nodup) (hb : ∀ c ∈ draw, c < size.x * size.y) (hf : 0 < factor) :
    ∃ grid coords, random_grid size classes factor instances draw = .ok (grid, coords) ∧
      (∀ (k : Nat) (hk : k < draw.length),
        grid.getD (draw.get ⟨k, hk⟩) 0 = (k + 1) * factor) ∧
      (∀ p, p ∉ draw → grid.getD p 0 = 0) ∧
      ((List.range (size.x * size.y)).filter (fun p => grid.getD p 0 != 0)).length =
        instances := by
  obtain ⟨hval, hzero, hcount⟩ := seeded_grid_spec (size.x * size.y) factor draw hnd hb hf
  have hguard : ¬(size.x * size.y = 0 ∧ 0 < instances) := by
    rintro ⟨h0, hpos⟩
    rcases draw with _ | ⟨c, cs⟩
    · rw [← hlen] at hpos
      exact absurd hpos (by simp)
    · have := hb c (List.mem_cons_self c cs)
      omega
  have heq : random_grid size classes factor instances draw =
      .ok (seedLoop factor 1 draw (List.replicate (size.x * size.y) 0),
        grid_coords size (seedLoop factor 1 draw (List.replicate (size.x * size.y) 0))) := by
    simp only [random_grid]
    rw [if_neg (by omega), if_neg hguard]
  exact ⟨_, _, heq, hval, hzero, by rw [hcount, hlen]⟩

/-- Witness for C3 amended: two distinct with-replacement draws on a 2x2 grid. -/
theorem C3_with_replacement_seeding_witness :
    ∃ grid coords, random_grid ⟨2, 2⟩ 1 10 2 [3, 1] = .ok (grid, coords) ∧
      (∀ (k : Nat) (hk : k < ([3, 1] : List Nat).length),
        grid.getD (([3, 1] : List Nat).get ⟨k, hk⟩) 0 = (k + 1) * 10) ∧
      (∀ p, p ∉ ([3, 1] : List Nat) → grid.getD p 0 = 0) ∧
      ((List.range 4).filter (fun p => grid.getD p 0 != 0)).length = 2 :=
  C3_with_replacement_seeding ⟨2, 2⟩ 1 10 2 [3, 1] (by decide) rfl (by decide) (by decide)
    (by decide)

/-- C6: when `instances < classes` the initializer draws `classes` unique
positions among the `width * height` cells, assigns the i-th drawn position
(1-indexed) the label `i * factor`, leaves every other cell 0, and so seeds
exactly `classes` cells with pairwise distinct positive labels
`factor, ..., classes * factor`. -/
theorem C6_unique_seeding (size : Size2D) (classes factor instances : Nat)
    (draw : List Nat) (hlt : instances < classes) (hlen : draw.length = classes)
    (hnd : draw.Nodup) (hb : ∀ c ∈ draw, c < size.x * size.y) (hf : 0 < factor) :
    ∃ grid coords, random_grid size classes factor instances draw = .ok (grid, coords) ∧
      (∀ (k : Nat) (hk : k < draw.length),
        grid.getD (draw.get ⟨k, hk⟩) 0 = (k + 1) * factor) ∧
      (∀ p, p ∉ draw → grid.getD p 0 = 0) ∧
      ((List.range (size.x * size.y)).filter (fun p => grid.getD p 0 != 0)).length =
        classes ∧
      (∀ (k₁ k₂ : Nat) (h₁ : k₁ < draw.length) (h₂ : k₂ < draw.length), k₁ ≠ k₂ →
        grid.getD (draw.get ⟨k₁, h₁⟩) 0 ≠ grid.getD (draw.get ⟨k₂, h₂⟩) 0) := by
  obtain ⟨hval, hzero, hcount⟩ := seeded_grid_spec (size.x * size.y) factor draw hnd hb hf
  have hle : classes ≤ size.x * size.y := by
    have hcard : draw.toFinset.card = draw.length := List.toFinset_card_of_nodup hnd
    have hsub : draw.toFinset ⊆ Finset.range (size.x * size.y) := by
      intro q hq
      rw [Finset.mem_range]
      exact hb q (List.mem_toFinset.mp hq)
    have := Finset.card_le_card hsub
    rw [hcard, Finset.card_range, hlen] at this
    exact this
  have heq : random_grid size classes factor instances draw =
      .ok (seedLoop factor 1 draw (List.replicate (size.x * size.y) 0),
        grid_coords size (seedLoop factor 1 draw (List.replicate (size.x * size.y) 0))) := by
    simp only [random_grid]
    rw [if_pos hlt, if_neg (by omega), if_neg (by omega)]
  refine ⟨_, _, heq, hval, hzero, by rw [hcount, hlen], ?_⟩
  intro k₁ k₂ h₁ h₂ hne
  rw [hval k₁ h₁, hval k₂ h₂]
  intro hmul
  have := Nat.eq_of_mul_eq_mul_right hf hmul
  omega

/-- Witness for C6: two unique draws on a 2x2 grid with factor 10. -/
theorem C6_unique_seeding_witness :
    ∃ grid coords, random_grid ⟨2, 2⟩ 2 10 0 [3, 1] = .ok (grid, coords) ∧
      (∀ (k : Nat) (hk : k < ([3, 1] : List Nat).length),
        grid.getD (([3, 1] : List Nat).get ⟨k, hk⟩) 0 = (k + 1) * 10) ∧
      (∀ p, p ∉ ([3, 1] : List Nat) → grid.getD p 0 = 0) ∧
      ((List.range 4).filter (fun p => grid.getD p 0 != 0)).length = 2 ∧
      (∀ (k₁ k₂ : Nat) (h₁ : k₁ < ([3, 1] : List Nat).length)
        (h₂ : k₂ < ([3, 1] : List Nat).length), k₁ ≠ k₂ →
        grid.getD (([3, 1] : List Nat).get ⟨k₁, h₁⟩) 0 ≠
          grid.getD (([3, 1] : List Nat).get ⟨k₂, h₂⟩) 0) :=
  C6_unique_seeding ⟨2, 2⟩ 2 10 0 [3, 1] (by decide) rfl (by decide) (by decide) (by decide)

/-! ### Round-loop invariants -/

theorem Checker.callOn_length (size : Size2D) (skips coord_len : Nat)
    (vicOrd : List (Int × Int)) (g : List Nat) (i x y : Nat) :
    (Checker.callOn size skips coord_len vicOrd g i x y).2.2.length = g.length := by
  simp only [Checker.callOn]
  split
  · exact VicinityIterator.execute_length size g vicOrd x y g
  · rfl

theorem Checker.callOn_nonzero_mono (size : Size2D) (skips coord_len : Nat)
    (vicOrd : List (Int × Int)) (g : List Nat) (i x y j : Nat)
    (h : g.getD j 0 ≠ 0) :
    (Checker.callOn size skips coord_len vicOrd g i x y).2.2.getD j 0 ≠ 0 := by
  simp only [Checker.callOn]
  split
  · exact VicinityIterator.execute_nonzero_mono size g vicOrd x y g j h
  · exact h

theorem Checker.callOn_vals (size : Size2D) (skips coord_len : Nat)
    (vicOrd : List (Int × Int)) (g : List Nat) (i x y : Nat) (P : Nat → Prop)
    (hP : ∀ j, j < g.length → g.getD j 0 = 0 ∨ P (g.getD j 0)) :
    ∀ j, j < g.length →
      (Checker.callOn size skips coord_len vicOrd g i x y).2.2.getD j 0 = 0 ∨
      P ((Checker.callOn size skips coord_len vicOrd g i x y).2.2.getD j 0) := by
  simp only [Checker.callOn]
  split
  · rcases VicinityIterator.execute_spec size g vicOrd x y g with ⟨heq, -⟩ |
      ⟨p, -, hnz, heq⟩
    · rw [heq]
      exact hP
    · rw [heq]
      intro j hj
      have hwr : wrapIdx size x y p < g.length := by
        by_contra hge
        exact hnz (List.getD_eq_default g 0 (Nat.le_of_not_lt hge))
      have hPv : P (g.getD (wrapIdx size x y p) 0) := by
        rcases hP _ hwr with h0 | h
        · exact absurd h0 hnz
        · exact h
      rcases getD_set_cases g (y * size.x + x) (g.getD (wrapIdx size x y p) 0) j with
        hc | ⟨-, -, hc⟩
      · rw [hc]
        exact hP j hj
      · rw [hc]
        exact Or.inr hPv
  · exact hP

theorem Checker.callOn_keep_false (size : Size2D) (skips coord_len : Nat)
    (vicOrd : List (Int × Int)) (g : List Nat) (i x y : Nat)
    (hidx : y * size.x + x < g.length)
    (hkeep : (Checker.callOn size skips coord_len vicOrd g i x y).2.1 = false) :
    (Checker.callOn size skips coord_len vicOrd g i x y).2.2.getD (y * size.x + x) 0 ≠ 0 := by
  revert hkeep
  simp only [Checker.callOn]
  split
  · rcases VicinityIterator.execute_spec size g vicOrd x y g with ⟨heq, -⟩ |
      ⟨p, -, hnz, heq⟩
    · rw [heq]
      intro hkeep
      exact Bool.noConfusion hkeep
    · rw [heq]
      intro _
      rw [getD_set_same g (y * size.x + x) _ hidx]
      exact hnz
  · intro hkeep
    exact Bool.noConfusion hkeep

theorem roundLoop_sublist (size : Size2D) (skips coord_len : Nat)
    (sch : Nat → List (Int × Int)) :
    ∀ (cs : List (Nat × Nat)) (g : List Nat) (i k : Nat),
      (roundLoop size skips coord_len sch cs g i k).1.Sublist cs
  | [], _, _, _ => List.Sublist.refl []
  | c :: cs, g, i, k => by
    simp only [roundLoop]
    split
    · exact List.Sublist.cons₂ c (roundLoop_sublist size skips coord_len sch cs _ _ _)
    · exact List.Sublist.cons c (roundLoop_sublist size skips coord_len sch cs _ _ _)

theorem roundLoop_length (size : Size2D) (skips coord_len : Nat)
    (sch : Nat → List (Int × Int)) :
    ∀ (cs : List (Nat × Nat)) (g : List Nat) (i k : Nat),
      (roundLoop size skips coord_len sch cs g i k).2.1.length = g.length
  | [], _, _, _ => rfl
  | c :: cs, g, i, k => by
    simp only [roundLoop]
    split
    · rw [roundLoop_length size skips coord_len sch cs _ _ _,
        Checker.callOn_length size skips coord_len (sch k) g i c.1 c.2]
    · rw [roundLoop_length size skips coord_len sch cs _ _ _,
        Checker.callOn_length size skips coord_len (sch k) g i c.1 c.2]

theorem roundLoop_nonzero_mono (size : Size2D) (skips coord_len : Nat)
    (sch : Nat → List (Int × Int)) :
    ∀ (cs : List (Nat × Nat)) (g : List Nat) (i k j : Nat), g.getD j 0 ≠ 0 →
      (roundLoop size skips coord_len sch cs g i k).2.1.getD j 0 ≠ 0
  | [], _, _, _, _, h => h
  | c :: cs, g, i, k, j, h => by
    simp only [roundLoop]
    split
    · exact roundLoop_nonzero_mono size skips coord_len sch cs _ _ _ j
        (Checker.callOn_nonzero_mono size skips coord_len (sch k) g i c.1 c.2 j h)
    · exact roundLoop_nonzero_mono size skips coord_len sch cs _ _ _ j
        (Checker.callOn_nonzero_mono size skips coord_len (sch k) g i c.1 c.2 j h)

theorem roundLoop_vals (size : Size2D) (skips coord_len : Nat)
    (sch : Nat → List (Int × Int)) (P : Nat → Prop) :
    ∀ (cs : List (Nat × Nat)) (g : List Nat) (i k : Nat),
      (∀ j, j < g.length → g.getD j 0 = 0 ∨ P (g.getD j 0)) →
      ∀ j, j < g.length →
        (roundLoop size skips coord_len sch cs g i k).2.1.getD j 0 = 0 ∨
        P ((roundLoop size skips coord_len sch cs g i k).2.1.getD j 0)
  | [], _, _, _, hP, j, hj => hP j hj
  | c :: cs, g, i, k, hP, j, hj => by
    have hlen := Checker.callOn_length size skips coord_len (sch k) g i c.1 c.2
    have hP' := Checker.callOn_vals size skips coord_len (sch k) g i c.1 c.2 P hP
    simp only [roundLoop]
    split
    · exact roundLoop_vals size skips coord_len sch P cs _ _ _
        (fun j' hj' => hP' j' (by omega)) j (by omega)
    · exact roundLoop_vals size skips coord_len sch P cs _ _ _
        (fun j' hj' => hP' j' (by omega)) j (by omega)

theorem roundLoop_removed (size : Size2D) (skips coord_len : Nat)
    (sch : Nat → List (Int × Int)) :
    ∀ (cs : List (Nat × Nat)) (g : List Nat) (i k : Nat) (c : Nat × Nat), c ∈ cs →
      c ∉ (roundLoop size skips coord_len sch cs g i k).1 →
      c.2 * size.x + c.1 < g.length →
      (roundLoop size skips coord_len sch cs g i k).2.1.getD (c.2 * size.x + c.1) 0 ≠ 0
  | [], _, _, _, _, hmem, _, _ => absurd hmem (List.not_mem_nil _)
  | c₀ :: cs, g, i, k, c, hmem, hkept, hidx => by
    have hlen := Checker.callOn_length size skips coord_len (sch k) g i c₀.1 c₀.2
    rcases List.mem_cons.mp hmem with rfl | htail
    · by_cases hkeep : (Checker.callOn size skips coord_len (sch k) g i c.1 c.2).2.1 = true
      · exfalso
        apply hkept
        simp only [roundLoop]
        rw [if_pos hkeep]
        exact List.mem_cons_self c _
      · have hkf : (Checker.callOn size skips coord_len (sch k) g i c.1 c.2).2.1 = false :=
          Bool.eq_false_iff.mpr hkeep
        have hnz := Checker.callOn_keep_false size skips coord_len (sch k) g i c.1 c.2 hidx hkf
        simp only [roundLoop]
        rw [if_neg (by rw [hkf]; exact Bool.false_ne_true)]
        exact roundLoop_nonzero_mono size skips coord_len sch cs _ _ _ _ hnz
    · by_cases hkeep : (Checker.callOn size skips coord_len (sch k) g i c₀.1 c₀.2).2.1 = true
      · have hkept' : c ∉ (roundLoop size skips coord_len sch cs
            (Checker.callOn size skips coord_len (sch k) g i c₀.1 c₀.2).2.2
            (Checker.callOn size skips coord_len (sch k) g i c₀.1 c₀.2).1 (k + 1)).1 := by
          intro hin
          apply hkept
          simp only [roundLoop]
          rw [if_pos hkeep]
          exact List.mem_cons_of_mem c₀ hin
        simp only [roundLoop]
        rw [if_pos hkeep]
        exact roundLoop_removed size skips coord_len sch cs _ _ _ c htail hkept' (by omega)
      · have hkf : (Checker.callOn size skips coord_len (sch k) g i c₀.1 c₀.2).2.1 = false :=
          Bool.eq_false_iff.mpr hkeep
        have hkept' : c ∉ (roundLoop size skips coord_len sch cs
            (Checker.callOn size skips coord_len (sch k) g i c₀.1 c₀.2).2.2
            (Checker.callOn size skips coord_len (sch k) g i c₀.1 c₀.2).1 (k + 1)).1 := by
          intro hin
          apply hkept
          simp only [roundLoop]
          rw [if_neg (by rw [hkf]; exact Bool.false_ne_true)]
          exact hin
        simp only [roundLoop]
        rw [if_neg (by rw [hkf]; exact Bool.false_ne_true)]
        exact roundLoop_removed size skips coord_len sch cs _ _ _ c htail hkept' (by omega)

theorem roundStep_coords_le (size : Size2D) (skips coord_len : Nat)
    (sch : Nat → List (Int × Int)) (s : DriverState) :
    (roundStep size skips coord_len sch s).coords.length ≤ s.coords.length :=
  (roundLoop_sublist size skips coord_len sch s.coords s.grid s.ctr 0).length_le

theorem roundStep_inv (size : Size2D) (classes factor skips coord_len : Nat)
    (sch : Nat → List (Int × Int)) (s : DriverState) (hinv : Inv size classes factor s) :
    Inv size classes factor (roundStep size skips coord_len sch s) := by
  obtain ⟨hglen, hbounds, hzmem, hvals⟩ := hinv
  have hsub := roundLoop_sublist size skips coord_len sch s.coords s.grid s.ctr 0
  have hlen := roundLoop_length size skips coord_len sch s.coords s.grid s.ctr 0
  refine ⟨?_, ?_, ?_, ?_⟩
  · rw [show (roundStep size skips coord_len sch s).grid =
      (roundLoop size skips coord_len sch s.coords s.grid s.ctr 0).2.1 from rfl, hlen, hglen]
  · intro c hc
    exact hbounds c (hsub.subset hc)
  · intro x hx y hy hz
    by_contra hnot
    have hxy : (x, y) ∈ s.coords := by
      apply hzmem x hx y hy
      by_contra hnz
      exact roundLoop_nonzero_mono size skips coord_len sch s.coords s.grid s.ctr 0
        (y * size.x + x) hnz hz
    have hrem := roundLoop_removed size skips coord_len sch s.coords s.grid s.ctr 0
      (x, y) hxy hnot (by rw [hglen]; exact flat_index_lt size.x size.y x y hx hy)
    exact hrem hz
  · intro j hj
    exact roundLoop_vals size skips coord_len sch
      (fun v => v ∈ labelValues classes factor) s.coords s.grid s.ctr 0
      (fun j' hj' => hvals j' (by omega)) j (by omega)

theorem runRounds_inv (size : Size2D) (classes factor skips coord_len : Nat)
    (rsch : Nat → Nat → List (Int × Int)) :
    ∀ (n : Nat) (s : DriverState), Inv size classes factor s →
      Inv size classes factor (runRounds size skips coord_len rsch n s)
  | 0, _, hinv => hinv
  | n + 1, s, hinv =>
    runRounds_inv size classes factor skips coord_len rsch n _
      (roundStep_inv size classes factor skips coord_len (rsch n) s hinv)

/-! ### The initializer's output state -/

theorem mem_grid_coords (size : Size2D) (g : List Nat) (x y : Nat) :
    (x, y) ∈ grid_coords size g ↔
      x < size.x ∧ y < size.y ∧ g.getD (y * size.x + x) 0 = 0 := by
  simp only [grid_coords, List.mem_flatMap, List.mem_map, List.mem_filter, List.mem_range]
  constructor
  · rintro ⟨a, ha, b, ⟨hb, hzero⟩, heq⟩
    rw [Prod.ext_iff] at heq
    obtain ⟨h1, h2⟩ := heq
    subst h1
    subst h2
    exact ⟨ha, hb, by simpa using hzero⟩
  · rintro ⟨hx, hy, hz⟩
    exact ⟨x, hx, y, ⟨hy, by simpa using hz⟩, rfl⟩

theorem Generator_RB.init_eq (size : Size2D) (classes : Nat) (draw : List Nat)
    (g : List Nat) (coords : List (Nat × Nat))
    (hinit : Generator_RB.init size classes draw = .ok (g, coords)) :
    g = seedLoop 10 1 draw (List.replicate (size.x * size.y) 0) ∧
    coords = grid_coords size g := by
  simp only [Generator_RB.init, random_grid] at hinit
  by_cases h0 : 0 < classes
  · rw [if_pos h0] at hinit
    by_cases hz : size.x * size.y = 0
    · rw [if_pos hz] at hinit
      exact absurd hinit (by simp)
    · rw [if_neg hz] at hinit
      by_cases hcl : size.x * size.y < classes
      · rw [if_pos hcl] at hinit
        exact absurd hinit (by simp)
      · rw [if_neg hcl] at hinit
        injection hinit with hh
        rw [Prod.mk.injEq] at hh
        obtain ⟨h1, h2⟩ := hh
        refine ⟨h1.symm, ?_⟩
        rw [← h2, h1]
  · rw [if_neg h0, if_neg (by omega)] at hinit
    injection hinit with hh
    rw [Prod.mk.injEq] at hh
    obtain ⟨h1, h2⟩ := hh
    refine ⟨h1.symm, ?_⟩
    rw [← h2, h1]

theorem seeded_vals (size : Size2D) (classes : Nat) (draw : List Nat)
    (hlen : draw.length = classes) (g : List Nat)
    (hg : g = seedLoop 10 1 draw (List.replicate (size.x * size.y) 0)) :
    g.length = size.x * size.y ∧
    ∀ j, j < size.x * size.y → g.getD j 0 = 0 ∨ g.getD j 0 ∈ labelValues classes 10 := by
  subst hg
  constructor
  · rw [seedLoop_length, List.length_replicate]
  · intro j hj
    rcases seedLoop_getD_cases 10 draw 1 (List.replicate (size.x * size.y) 0) j with
      hc | ⟨k, hk, hc⟩
    · rw [hc, getD_replicate_zero]
      exact Or.inl rfl
    · right
      rw [hc]
      rw [labelValues, List.mem_map]
      exact ⟨k, List.mem_range.mpr (by omega), by ring⟩

theorem Generator_RB.init_inv (size : Size2D) (classes : Nat) (draw : List Nat)
    (g : List Nat) (coords : List (Nat × Nat)) (hlen : draw.length = classes)
    (hinit : Generator_RB.init size classes draw = .ok (g, coords))
    (perm : List (Nat × Nat)) (hperm : perm.Perm coords) :
    Inv size classes 10 ⟨g, perm, 0⟩ := by
  obtain ⟨hg, hcoords⟩ := Generator_RB.init_eq size classes draw g coords hinit
  obtain ⟨hglen, hvals⟩ := seeded_vals size classes draw hlen g hg
  refine ⟨hglen, ?_, ?_, hvals⟩
  · intro c hc
    have : c ∈ grid_coords size g := by
      rw [← hcoords]
      exact hperm.subset hc
    obtain ⟨cx, cy⟩ := c
    rw [mem_grid_coords] at this
    exact ⟨this.1, this.2.1⟩
  · intro x hx y hy hz
    rw [hperm.mem_iff, hcoords, mem_grid_coords]
    exact ⟨hx, hy, hz⟩

theorem runRounds_vals (size : Size2D) (skips coord_len : Nat)
    (rsch : Nat → Nat → List (Int × Int)) (P : Nat → Prop) :
    ∀ (n : Nat) (s : DriverState),
      (∀ j, j < s.grid.length → s.grid.getD j 0 = 0 ∨ P (s.grid.getD j 0)) →
      (runRounds size skips coord_len rsch n s).grid.length = s.grid.length ∧
      ∀ j, j < s.grid.length →
        (runRounds size skips coord_len rsch n s).grid.getD j 0 = 0 ∨
        P ((runRounds size skips coord_len rsch n s).grid.getD j 0)
  | 0, _, h => ⟨rfl, h⟩
  | n + 1, s, h => by
    have hlen : (roundStep size skips coord_len (rsch n) s).grid.length = s.grid.length :=
      roundLoop_length size skips coord_len (rsch n) s.coords s.grid s.ctr 0
    have hstep : ∀ j, j < (roundStep size skips coord_len (rsch n) s).grid.length →
        (roundStep size skips coord_len (rsch n) s).grid.getD j 0 = 0 ∨
        P ((roundStep size skips coord_len (rsch n) s).grid.getD j 0) := by
      intro j hj
      exact roundLoop_vals size skips coord_len (rsch n) P s.coords s.grid s.ctr 0 h j
        (by omega)
    obtain ⟨hl, hv⟩ := runRounds_vals size skips coord_len rsch P n
      (roundStep size skips coord_len (rsch n) s) hstep
    simp only [runRounds]
    refine ⟨by rw [hl, hlen], ?_⟩
    intro j hj
    exact hv j (by omega)

/-! ### C4: intra-round cascading -/

/-- C4: within one round the write target and read source are the same shared
grid.  In the pre-round grid every ring cell of (4, 0) is zero, so a resolver
reading only the previous round's committed state fails for it whatever the
shuffle order — the spec-modelled synchronous round indeed leaves it 0 and
keeps it unlabeled — yet the code's round labels it 10 and removes it: the
value written at (2, 0) earlier in the very same round is visible to its
lookup. -/
theorem C4_intra_round_cascade :
    (∀ p ∈ Generator_RB.vic, g0.getD (wrapIdx sz10 4 0 p) 0 = 0) ∧
    (roundStep sz10 Generator_RB.skips 9 canonSch s4).grid.getD 4 0 = 10 ∧
    (4, 0) ∉ (roundStep sz10 Generator_RB.skips 9 canonSch s4).coords ∧
    (roundStepSync sz10 Generator_RB.skips 9 canonSch s4).grid.getD 4 0 = 0 ∧
    (4, 0) ∈ (roundStepSync sz10 Generator_RB.skips 9 canonSch s4).coords := by
  decide

/-! ### C5: progress and termination -/

/-- C5 amended: per round the unlabeled-coordinate count is non-increasing,
the driver invariant is preserved across any number of rounds, and whenever a
run reaches the empty unlabeled list the final grid has no zero cell — every
value is one of the labels {factor, ..., classes·factor}; the generator's
initialization (with any initial shuffle) establishes the invariant.
Termination itself does not hold for every outcome of the randomness: see the
counterexample, which exhibits a schedule making no progress forever. -/
theorem C5_growth_driver (size : Size2D) (classes factor skips coord_len n : Nat)
    (rsch : Nat → Nat → List (Int × Int)) (s : DriverState)
    (hinv : Inv size classes factor s) :
    (∀ (sch : Nat → List (Int × Int)) (t : DriverState),
      (roundStep size skips coord_len sch t).coords.length ≤ t.coords.length) ∧
    Inv size classes factor (runRounds size skips coord_len rsch n s) ∧
    ((runRounds size skips coord_len rsch n s).coords = [] →
      ∀ x, x < size.x → ∀ y, y < size.y →
        (runRounds size skips coord_len rsch n s).grid.getD (y * size.x + x) 0 ∈
          labelValues classes factor) ∧
    (∀ (size' : Size2D) (classes' : Nat) (draw' : List Nat) (g' : List Nat)
      (coords' perm' : List (Nat × Nat)), draw'.length = classes' →
      Generator_RB.init size' classes' draw' = .ok (g', coords') → perm'.Perm coords' →
      Inv size' classes' 10 ⟨g', perm', 0⟩) := by
  refine ⟨fun sch t => roundStep_coords_le size skips coord_len sch t,
    runRounds_inv size classes factor skips coord_len rsch n s hinv, ?_,
    fun size' classes' draw' g' coords' perm' hlen hinit hperm =>
      Generator_RB.init_inv size' classes' draw' g' coords' hlen hinit perm' hperm⟩
  intro hempty x hx y hy
  obtain ⟨hglen, -, hzmem, hvals⟩ :=
    runRounds_inv size classes factor skips coord_len rsch n s hinv
  by_cases hz : (runRounds size skips coord_len rsch n s).grid.getD (y * size.x + x) 0 = 0
  · exfalso
    have := hzmem x hx y hy hz
    rw [hempty] at this
    exact List.not_mem_nil _ this
  · rcases hvals (y * size.x + x) (flat_index_lt size.x size.y x y hx hy) with h0 | h
    · exact absurd h0 hz
    · exact h

/-- Witness for C5 amended on a fully labeled 1x1 state. -/
theorem C5_growth_driver_witness :
    (runRounds ⟨1, 1⟩ 3 0 (fun _ => canonSch) 0 ⟨[10], [], 0⟩).grid.getD 0 0 ∈
      labelValues 1 10 :=
  (C5_growth_driver ⟨1, 1⟩ 1 10 3 0 0 (fun _ => canonSch) ⟨[10], [], 0⟩
    ⟨rfl, by decide, by
      intro x hx y hy hz
      have hx0 : x = 0 := Nat.lt_one_iff.mp hx
      have hy0 : y = 0 := Nat.lt_one_iff.mp hy
      subst hx0
      subst hy0
      exact absurd hz (by decide), by decide⟩).2.2.1 rfl 0 (by decide) 0 (by decide)

/-- C5 counterexample: a reachable post-construction state (the seed draw [0]
on a 10x1 grid, the initial shuffle producing the adversarial order `s0`) from
which the driver never terminates: with the frozen count 9 ≡ 0 (mod 3), each
round attempts only the three all-zero-ring cells (3,0), (4,0), (5,0), removes
nothing, and returns the counter to 0, so the unlabeled list never empties. -/
theorem C5_counterexample :
    Generator_RB.init sz10 1 [0] =
      .ok (g0, [(1, 0), (2, 0), (3, 0), (4, 0), (5, 0), (6, 0), (7, 0), (8, 0), (9, 0)]) ∧
    s0.coords.Perm [(1, 0), (2, 0), (3, 0), (4, 0), (5, 0), (6, 0), (7, 0), (8, 0), (9, 0)] ∧
    s0.coords.length = 9 ∧
    divergesFrom sz10 Generator_RB.skips 9 (fun _ => canonSch) s0 := by
  refine ⟨by decide, by decide, rfl, ?_⟩
  have hfix : roundStep sz10 Generator_RB.skips 9 canonSch s0 = s0 := by decide
  intro n
  have hrun : runRounds sz10 Generator_RB.skips 9 (fun _ => canonSch) n s0 = s0 := by
    induction n with
    | zero => rfl
    | succ m ih =>
      simp only [runRounds]
      rw [hfix]
      exact ih
  rw [hrun]
  decide

/-! ### C10: the factor is always 10 -/

/-- C10: the random-boundary Generator exposes no factor parameter — its
initializer is definitionally `random_grid` with `factor = 10` and
`instances = 0` — and after seeding, then after any number of driver rounds
under any schedule and any skips/coord_len configuration, every cell of the
grid is 0 or one of the labels {10, 20, ..., 10·classes}. -/
theorem C10_factor_ten (size : Size2D) (classes : Nat) (draw : List Nat) (g : List Nat)
    (coords : List (Nat × Nat)) (hlen : draw.length = classes)
    (hinit : Generator_RB.init size classes draw = .ok (g, coords)) :
    (∀ (size' : Size2D) (classes' : Nat) (draw' : List Nat),
      Generator_RB.init size' classes' draw' = random_grid size' classes' 10 0 draw') ∧
    ∀ (coords' : List (Nat × Nat)) (ctr skips coord_len n : Nat)
      (rsch : Nat → Nat → List (Int × Int)) (j : Nat), j < size.x * size.y →
      (runRounds size skips coord_len rsch n ⟨g, coords', ctr⟩).grid.getD j 0 = 0 ∨
      (runRounds size skips coord_len rsch n ⟨g, coords', ctr⟩).grid.getD j 0 ∈
        labelValues classes 10 := by
  refine ⟨fun _ _ _ => rfl, ?_⟩
  obtain ⟨hg, -⟩ := Generator_RB.init_eq size classes draw g coords hinit
  obtain ⟨hglen, hvals⟩ := seeded_vals size classes draw hlen g hg
  intro coords' ctr skips coord_len n rsch j hj
  have hgl : (DriverState.mk g coords' ctr).grid.length = size.x * size.y := hglen
  obtain ⟨-, hv⟩ := runRounds_vals size skips coord_len rsch
    (fun v => v ∈ labelValues classes 10) n ⟨g, coords', ctr⟩
    (fun j' hj' => hvals j' (by rw [hgl] at hj'; exact hj'))
  exact hv j (by rw [hgl]; exact hj)

/-- Witness for C10 after one concrete round. -/
theorem C10_factor_ten_witness :
    (runRounds sz10 3 9 (fun _ => canonSch) 1 ⟨g0, [(1, 0)], 0⟩).grid.getD 1 0 = 0 ∨
    (runRounds sz10 3 9 (fun _ => canonSch) 1 ⟨g0, [(1, 0)], 0⟩).grid.getD 1 0 ∈
      labelValues 1 10 :=
  (C10_factor_ten sz10 1 [0] g0
    [(1, 0), (2, 0), (3, 0), (4, 0), (5, 0), (6, 0), (7, 0), (8, 0), (9, 0)] rfl
    (by decide)).2 [(1, 0)] 0 3 9 1 (fun _ => canonSch) 1 (by decide)

/-! ### C9: label sources and toroidal distance -/

theorem tdist_wrap (w x : Nat) (δ : Int) (hw : 2 * δ.natAbs ≤ w) (hx : x < w) :
    tdist w (((((x : Int) + δ) % (w : Int)).toNat)) x = δ.natAbs := by
  have hne : (w : Int) ≠ 0 := by omega
  have hznn : 0 ≤ (((x : Int) + δ) % (w : Int)) := Int.emod_nonneg ((x : Int) + δ) hne
  have haz : ((((((x : Int) + δ) % (w : Int)).toNat) : Nat) : Int) = (((x : Int) + δ) % (w : Int)) :=
    Int.toNat_of_nonneg hznn
  have hsub : ((((x : Int) + δ) % (w : Int)) - x) % (w : Int) = δ % (w : Int) := by
    rw [Int.emod_def ((x : Int) + δ) w]
    have e : (x : Int) + δ - w * (((x : Int) + δ) / w) - x =
        δ + w * (-(((x : Int) + δ) / w)) := by ring
    rw [e, Int.add_mul_emod_self_left]
  have hsub' : ((x : Int) - (((x : Int) + δ) % (w : Int))) % (w : Int) = (-δ) % (w : Int) := by
    rw [Int.emod_def ((x : Int) + δ) w]
    have e : (x : Int) - ((x : Int) + δ - w * (((x : Int) + δ) / w)) =
        -δ + w * (((x : Int) + δ) / w) := by ring
    rw [e, Int.add_mul_emod_self_left]
  simp only [tdist]
  rw [haz, hsub, hsub']
  by_cases h0 : δ = 0
  · subst h0
    simp
  · rcases Int.le_or_lt 0 δ with hδ | hδ
    · have h1 : δ % (w : Int) = δ :=
        Int.emod_eq_of_lt hδ (show δ < (w : Int) by omega)
      have e1 : ((-δ) + (w : Int) * 1) % (w : Int) = (-δ) % (w : Int) :=
        Int.add_mul_emod_self_left (-δ) w 1
      have e2 : (-δ) + (w : Int) * 1 = -δ + w := by ring
      have e3 : (0 : Int) ≤ -δ + w := by omega
      have e4 : -δ + (w : Int) < w := by omega
      have h2 : (-δ) % (w : Int) = -δ + w := by
        rw [← e1, e2, Int.emod_eq_of_lt e3 e4]
      rw [h1, h2]
      omega
    · have e1 : (δ + (w : Int) * 1) % (w : Int) = δ % (w : Int) :=
        Int.add_mul_emod_self_left δ w 1
      have e2 : δ + (w : Int) * 1 = δ + w := by ring
      have e3 : (0 : Int) ≤ δ + w := by omega
      have e4 : δ + (w : Int) < w := by omega
      have h1 : δ % (w : Int) = δ + w := by
        rw [← e1, e2, Int.emod_eq_of_lt e3 e4]
      have h2 : (-δ) % (w : Int) = -δ :=
        Int.emod_eq_of_lt (show (0 : Int) ≤ -δ by omega) (show -δ < (w : Int) by omega)
      rw [h1, h2]
      omega

/-- C9 counterexample: on a 10-wide, 1-high grid, cell (1, 0) is successfully
labeled from the seed at (0, 0) — the only nonzero cell — which sits at
toroidal Chebyshev distance 1: an immediate neighbor, because offsets such as
(-1, ±2) wrap their y-component to 0 on a height-1 grid. -/
theorem C9_counterexample :
    (VicinityIterator.execute sz10 g0 Generator_RB.vic 1 0 g0).1 = true ∧
    (VicinityIterator.execute sz10 g0 Generator_RB.vic 1 0 g0).2.getD 1 0 = 10 ∧
    (∀ j, j < 10 → g0.getD j 0 ≠ 0 → j = 0) ∧
    max (tdist 10 1 0) (tdist 1 0 0) = 1 := by
  decide

/-- C9 amended: the driver's vicinity is exactly
`get_kernel_border_coordinates 5`, the 16 offsets of Chebyshev norm 2, so each
labeling attempt consults exactly those 16 offsets; when both grid dimensions
are at least 4 every consulted cell — hence any label source — lies at
toroidal Chebyshev distance exactly 2 from the target cell.  On smaller
dimensions wrapped offsets can collapse onto immediate neighbors or the cell
itself (see the counterexample). -/
theorem C9_ring_distance (size : Size2D) (x y : Nat) (p : Int × Int)
    (hw : 4 ≤ size.x) (hh : 4 ≤ size.y) (hx : x < size.x) (hy : y < size.y)
    (hp : p ∈ Generator_RB.vic) :
    Generator_RB.vic = get_kernel_border_coordinates 5 ∧
    Generator_RB.vic.length = 16 ∧
    max p.1.natAbs p.2.natAbs = 2 ∧
    max (tdist size.x ((((x : Int) + p.1) % (size.x : Int)).toNat) x)
      (tdist size.y ((((y : Int) + p.2) % (size.y : Int)).toNat) y) = 2 := by
  obtain ⟨a, b⟩ := p
  have hp5 : (a, b) ∈ get_kernel_border_coordinates 5 := hp
  rw [mem_kernel_border] at hp5
  obtain ⟨⟨ha1, ha2⟩, ⟨hb1, hb2⟩, hor⟩ := hp5
  rw [Int.abs_eq_natAbs, Int.abs_eq_natAbs] at hor
  have habs : max a.natAbs b.natAbs = 2 := by
    rcases hor with h | h <;> omega
  refine ⟨rfl, by decide, habs, ?_⟩
  rw [tdist_wrap size.x x a (by omega) hx, tdist_wrap size.y y b (by omega) hy]
  exact habs

/-- Witness for C9 amended at offset (2, 1) on a 4x4 grid. -/
theorem C9_ring_distance_witness :
    max (tdist 4 ((((0 : Nat) : Int) + 2) % (4 : Int)).toNat 0)
      (tdist 4 ((((0 : Nat) : Int) + 1) % (4 : Int)).toNat 0) = 2 :=
  (C9_ring_distance ⟨4, 4⟩ 0 0 (2, 1) (by decide) (by decide) (by decide) (by decide)
    (by decide)).2.2.2
end PyTraits
